import Mathlib

/-!
Verification of the "Connecting the Dots" PDF document-intelligence system.

The repository's `src/` tree contains the React frontend (`frontend/src/App.js`)
and the testing log (`test_result.md`).  The two core engines described by the
specification — the Structure Extraction Engine (`extract_structure`) and the
Persona Relevance Engine (`rank_sections`) — live in the backend, which is not
part of the available sources; those components are modelled here from the
specification (each such definition carries a `Modelled from the spec:` doc
comment).  The frontend definitions are translated directly from `App.js`.
-/

namespace ConnectingDots

/-! ## Frontend model (translated from `src/frontend/src/App.js`) -/

/-- A file as selected through the upload `<input type="file">` control.
The mimetype and the page count are the attributes the spec's calling-layer
obligation talks about; `App.js` itself never inspects either of them. -/
structure UploadFile where
  name : String
  mimetype : String
  pages : Nat
deriving DecidableEq

/-- Translation of `handleFileUpload` (App.js lines 43-66): if no file is
selected it returns without sending anything; otherwise it POSTs the selected
file to `/api/upload-pdf` unchanged.  There is no client-side mimetype or
page-count check anywhere in the function.  The result is the request payload
sent to the upload endpoint, `none` when no request is sent. -/
def handleFileUpload (selectedFile : Option UploadFile) : Option UploadFile :=
  match selectedFile with
  | none => none
  | some f => some f

/-- The advisory text shown next to the file picker (App.js line 184).
It is display text only; no code path reads a page count. -/
def uploadPageHint : String := "Maximum 50 pages supported"

/-- The `accept` attribute of the file input (App.js line 168).  It filters
the browser's file dialog by extension but does not validate what is sent. -/
def uploadAccept : String := ".pdf"

/-- Translation of `toggleDocSelection` (App.js lines 95-101):
`prev.includes(docId) ? prev.filter(id => id !== docId) : [...prev, docId]`. -/
def toggleDocSelection (docId : String) (prev : List String) : List String :=
  if docId ∈ prev then prev.filter (fun id => id ≠ docId) else prev ++ [docId]

/-- The persona query sent to `/api/analyze-persona` and consumed by the
Persona Relevance Engine.  Spec §3: `{persona, job_to_be_done, document_ids}`. -/
structure PersonaQuery where
  persona : String
  job_to_be_done : String
  document_ids : List String
deriving DecidableEq

/-- Translation of `handlePersonaAnalysis` (App.js lines 68-93): it returns
without sending anything when `!persona || !jobToBeDone ||
selectedDocs.length === 0` (for a JavaScript string state, falsy means the
empty string); otherwise it POSTs `{persona, job_to_be_done, document_ids}`.
The result is the request payload, `none` when no request is sent. -/
def handlePersonaAnalysis (persona jobToBeDone : String) (selectedDocs : List String) :
    Option PersonaQuery :=
  if persona = "" ∨ jobToBeDone = "" ∨ selectedDocs.length = 0 then none
  else some ⟨persona, jobToBeDone, selectedDocs⟩

/-- Running a whole interaction history of document-selection clicks, starting
from the initial React state `selectedDocs = []` (App.js line 15), which is
also the state restored after a successful analysis (App.js line 84). -/
def runToggles (clicks : List String) : List String :=
  clicks.foldl (fun acc d => toggleDocSelection d acc) []

/-! ## Persona Relevance Engine

Modelled from the spec (§3, §4.5, §4.6, §6): the backend implementation
(`backend/server.py`) is not among the available sources, so the engine is
reconstructed from the specification's description of the data model, the
term-weighting vector space, the cosine-similarity scoring and the
sort-with-tie-breaking.  -/

/-- Modelled from the spec: a Section — `{document_id, title, page, body_text}`
(§3); the missing backend's section records.  Sections arrive pre-tagged with
their originating document id (§6). -/
structure Section where
  document_id : String
  title : String
  page : Nat
  body_text : String
deriving DecidableEq

/-- Modelled from the spec: a RankedSection — `{document_id, section_title,
page, importance_rank, similarity_score}` (§3), produced by `rank_sections`.
The spec's float `similarity_score` is modelled as the square of the cosine
similarity, a rational number: squaring is a strictly monotone transform on
the non-negative cosine values, with the same zero set and the same `[0,1]`
range, and it keeps the whole development executable (the cosine itself
involves square roots).  `similarity_score_is_squared_cosine` certifies the
relationship. -/
structure RankedSection where
  document_id : String
  section_title : String
  page : Nat
  importance_rank : Nat
  similarity_score : ℚ
deriving DecidableEq

/-- Modelled from the spec: a RefinedExcerpt — `{document_id, page,
refined_text}` (§3), produced by the Sub-section Refiner (§4.6). -/
structure RefinedExcerpt where
  document_id : String
  page : Nat
  refined_text : String
deriving DecidableEq

/-- Modelled from the spec: the error taxonomy of the ranking operation (§7);
`InvalidQueryError` is fatal and carries no partial result. -/
inductive RankError where
  | InvalidQueryError
deriving DecidableEq

/-- Accumulating word splitter over a character list: `wordsAux cs acc` scans
`cs`, with `acc` holding the (reversed) characters of the word currently being
read.  Structural recursion, so it evaluates inside the kernel. -/
def wordsAux : List Char → List Char → List String
  | [], acc => if acc.isEmpty then [] else [String.mk acc.reverse]
  | c :: cs, acc =>
    if c = ' ' then
      (if acc.isEmpty then [] else [String.mk acc.reverse]) ++ wordsAux cs []
    else wordsAux cs (c :: acc)

/-- Modelled from the spec: tokenisation of free text for the term-weighting
vector space (§4.5).  The spec leaves the tokeniser unspecified; whitespace
splitting is used, dropping empty tokens. -/
def tokenize (s : String) : List String := wordsAux s.data []

/-- Modelled from the spec: term frequency of term `t` in a text (§4.5). -/
def tf (t text : String) : ℕ := (tokenize text).count t

/-- Modelled from the spec: the caller supplies a mapping
`document_id -> ordered Section list` (§6), modelled as an association list;
lookup returns the first entry with the given key. -/
def lookupSections (sbd : List (String × List Section)) (d : String) :
    Option (List Section) :=
  (sbd.find? (fun p => p.1 == d)).map Prod.snd

/-- Modelled from the spec: the pool of candidate sections is drawn from the
query's `document_ids`, in `document_ids` order, each document contributing
its stored ordered section list (§4.5, §6). -/
def poolOf (q : PersonaQuery) (sbd : List (String × List Section)) : List Section :=
  (q.document_ids.map (fun d => (lookupSections sbd d).getD [])).flatten

/-- Modelled from the spec: the vocabulary is fitted on the corpus formed by
all candidate sections' `body_text` (one corpus document per section, §4.5);
out-of-vocabulary query terms therefore contribute zero weight. -/
def vocabOf (pool : List Section) : Finset String :=
  ((pool.map (fun s => tokenize s.body_text)).flatten).toFinset

/-- Modelled from the spec: inverse document frequency over the section corpus
(§4.5), with one corpus document per section.  The spec fixes only the shape
("term-frequency × inverse-document-frequency", non-negative weighting); the
ratio `N / df` is used as the inverse document frequency, `0` for terms that
occur in no section. -/
def idf (pool : List Section) (t : String) : ℚ :=
  let df := (pool.filter (fun s => t ∈ tokenize s.body_text)).length
  if df = 0 then 0 else (pool.length : ℚ) / (df : ℚ)

/-- Modelled from the spec: the query text is the concatenation of `persona`
and `job_to_be_done` (§4.5). -/
def queryText (q : PersonaQuery) : String := q.persona ++ " " ++ q.job_to_be_done

/-- Modelled from the spec: the tf-idf weight of term `t` for a text, in the
vector space fitted on `pool` (§4.5).  Non-negative by construction. -/
def wText (pool : List Section) (text t : String) : ℚ := (tf t text : ℚ) * idf pool t

/-- Modelled from the spec: dot product of two texts' weight vectors over the
fitted vocabulary (§4.5). -/
def dotText (pool : List Section) (a b : String) : ℚ :=
  ∑ t ∈ vocabOf pool, wText pool a t * wText pool b t

/-- Modelled from the spec: squared Euclidean norm of a text's weight vector
over the fitted vocabulary (§4.5). -/
def norm2Text (pool : List Section) (a : String) : ℚ :=
  ∑ t ∈ vocabOf pool, (wText pool a t) ^ 2

/-- Modelled from the spec: the similarity of two texts (§4.5) — the square of
the cosine similarity of their weight vectors, `0` when either vector is the
zero vector (empty text or no term overlap).  Squaring the cosine is a
strictly monotone, zero- and range-preserving transform on the non-negative
cosines (see `similarity_score_is_squared_cosine`), chosen to keep the score
rational and the model executable. -/
def ssimText (pool : List Section) (a b : String) : ℚ :=
  if norm2Text pool a * norm2Text pool b = 0 then 0
  else (dotText pool a b) ^ 2 / (norm2Text pool a * norm2Text pool b)

/-- Modelled from the spec: the similarity score of a candidate section
against the persona-plus-job query (§4.5). -/
def ssimOf (q : PersonaQuery) (pool : List Section) (s : Section) : ℚ :=
  ssimText pool s.body_text (queryText q)

/-- A candidate section together with its similarity score and its position in
the input pool (used for the spec's tie-breaking by original order, §4.5). -/
structure Scored where
  sec : Section
  ssim : ℚ
  idx : Nat
deriving DecidableEq

/-- Modelled from the spec: the scored pool, keeping each section's original
position. -/
def scoredPool (q : PersonaQuery) (sbd : List (String × List Section)) : List Scored :=
  ((poolOf q sbd).enum).map (fun p => ⟨p.2, ssimOf q (poolOf q sbd) p.2, p.1⟩)

/-- Modelled from the spec: the sort order of §4.5 — descending by similarity,
ties (equal similarity) broken by original input position, so the order is a
deterministic total preorder. -/
def rankRel (a b : Scored) : Prop :=
  b.ssim < a.ssim ∨ (a.ssim = b.ssim ∧ a.idx ≤ b.idx)

instance rankRel.decRel : DecidableRel rankRel := fun a b => by
  unfold rankRel; infer_instance

/-- Modelled from the spec: the pool sorted descending by similarity with
input-order tie-breaking (§4.5). -/
def sortedPool (q : PersonaQuery) (sbd : List (String × List Section)) : List Scored :=
  List.insertionSort rankRel (scoredPool q sbd)

/-- Modelled from the spec: `importance_rank` is the 1-based position in the
sorted order (§4.5). -/
def rankedOf (q : PersonaQuery) (sbd : List (String × List Section)) : List RankedSection :=
  ((sortedPool q sbd).enumFrom 1).map
    (fun p => ⟨p.2.sec.document_id, p.2.sec.title, p.2.sec.page, p.1, p.2.ssim⟩)

/-- Modelled from the spec: sentence splitting for the Sub-section Refiner
(§4.6); split on periods, trimming and dropping empty pieces. -/
def sentencesOf (body : String) : List String :=
  ((body.splitOn ".").map (fun s => s.trim)).filter (fun s => s ≠ "")

/-- Sentence sort order for §4.6: descending by score, ties by original
sentence position. -/
def sentRel (a b : Nat × String × ℚ) : Prop :=
  b.2.2 < a.2.2 ∨ (a.2.2 = b.2.2 ∧ a.1 ≤ b.1)

instance sentRel.decRel : DecidableRel sentRel := fun a b => by
  unfold sentRel; infer_instance

/-- Restoring original sentence order for §4.6 ("in their original order, not
score order"). -/
def posRel (a b : Nat × String × ℚ) : Prop := a.1 ≤ b.1

instance posRel.decRel : DecidableRel posRel := fun a b => by
  unfold posRel; infer_instance

/-- Modelled from the spec: the refiner's length budget (§4.6), a tunable
constant, taken as 3 sentences. -/
def sentenceBudget : Nat := 3

/-- Modelled from the spec: the refiner consumes the top-K ranked sections,
K configurable with small default 5 (§4.6). -/
def topK : Nat := 5

/-- Modelled from the spec: the Sub-section Refiner for one section (§4.6) —
split the body into sentences, score each against the query in the same
fitted vector space, keep the highest-scoring sentences up to the budget,
concatenated in their original order; an empty body falls back to the
section title. -/
def refineSection (q : PersonaQuery) (pool : List Section) (s : Section) : RefinedExcerpt :=
  let sents := sentencesOf s.body_text
  if sents.isEmpty then ⟨s.document_id, s.page, s.title⟩
  else
    let scored := sents.enum.map (fun p => (p.1, p.2, ssimText pool p.2 (queryText q)))
    let top := (List.insertionSort sentRel scored).take sentenceBudget
    let chosen := List.insertionSort posRel top
    ⟨s.document_id, s.page, String.intercalate ". " (chosen.map (fun p => p.2.1))⟩

/-- Modelled from the spec: one RefinedExcerpt per top-ranked section (§4.6). -/
def refinedOf (q : PersonaQuery) (sbd : List (String × List Section)) : List RefinedExcerpt :=
  ((sortedPool q sbd).take topK).map (fun e => refineSection q (poolOf q sbd) e.sec)

/-- Modelled from the spec: `rank_sections` fails with `InvalidQueryError` iff
`document_ids` is empty or references a document absent from
`sections_by_document` (§6); validity is its negation. -/
def validQuery (q : PersonaQuery) (sbd : List (String × List Section)) : Prop :=
  q.document_ids ≠ [] ∧ ∀ d ∈ q.document_ids, (lookupSections sbd d).isSome = true

instance validQuery.dec (q : PersonaQuery) (sbd : List (String × List Section)) :
    Decidable (validQuery q sbd) := by
  unfold validQuery; infer_instance

/-- Modelled from the spec: `rank_sections(query, sections_by_document) ->
(ranked, refined)` (§6), failing with `InvalidQueryError` on an empty or
inconsistent query, in which case nothing is computed (the error constructor
carries no partial result). -/
def rank_sections (q : PersonaQuery) (sbd : List (String × List Section)) :
    Except RankError (List RankedSection × List RefinedExcerpt) :=
  if validQuery q sbd then Except.ok (rankedOf q sbd, refinedOf q sbd)
  else Except.error RankError.InvalidQueryError

/-- The position of a section's originating document inside the query's
`document_ids` list — the first component of the spec's tie-breaking order
"(document_ids order, then page ascending)" (§4.5). -/
def docPos (q : PersonaQuery) (s : Section) : Nat :=
  q.document_ids.indexOf s.document_id

/-- The spec's input order on sections (§3, §4.5): `document_ids` order first,
then page ascending. -/
def inputLex (q : PersonaQuery) (a b : Section) : Prop :=
  docPos q a < docPos q b ∨ (docPos q a = docPos q b ∧ a.page ≤ b.page)

/-- A concrete query for witnesses, following the worked example of spec §8. -/
def exQuery : PersonaQuery := ⟨"Investment Analyst", "find revenue projections", ["d1"]⟩

/-- A concrete section whose body overlaps the example query's vocabulary. -/
def exSecRevenue : Section := ⟨"d1", "Revenue", 2, "revenue projections grew 20%"⟩

/-- A concrete section sharing no vocabulary with the example query. -/
def exSecHistory : Section := ⟨"d1", "History", 5, "company history founded 1990"⟩

/-- A concrete section store for witnesses. -/
def exStore : List (String × List Section) := [("d1", [exSecRevenue, exSecHistory])]

instance rankRel.total : IsTotal Scored rankRel := ⟨by
  intro a b
  rcases lt_trichotomy a.ssim b.ssim with h | h | h
  · exact Or.inr (Or.inl h)
  · rcases le_total a.idx b.idx with hi | hi
    · exact Or.inl (Or.inr ⟨h, hi⟩)
    · exact Or.inr (Or.inr ⟨h.symm, hi⟩)
  · exact Or.inl (Or.inl h)⟩

instance rankRel.trans : IsTrans Scored rankRel := ⟨by
  intro a b c hab hbc
  rcases hab with h1 | ⟨e1, i1⟩ <;> rcases hbc with h2 | ⟨e2, i2⟩
  · exact Or.inl (h2.trans h1)
  · exact Or.inl (e2 ▸ h1)
  · exact Or.inl (lt_of_lt_of_eq h2 e1.symm)
  · exact Or.inr ⟨e1.trans e2, i1.trans i2⟩⟩

/-! ## Structure Extraction Engine

Modelled from the spec (§3, §4.1–§4.3, §6): the backend implementation is not
among the available sources, so the engine is reconstructed from the
specification.  The Layout Extractor's byte-level PDF parsing (§4.1) is pure
structural extraction with no heuristic content; a document is therefore
represented here by its ordered `TextBlock` sequence, the Layout Extractor's
output.  Thresholds the spec leaves open (§9: merge-adjacency distance,
style-fallback details) are fixed as named tunable constants. -/

/-- Whitespace trimming implemented over the character list, so that it
evaluates inside the kernel. -/
def strTrim (s : String) : String :=
  String.mk (((s.data.dropWhile (fun c => c = ' ')).reverse.dropWhile
    (fun c => c = ' ')).reverse)

/-- All-caps test used by the style fallback (§4.3): no lowercase letter. -/
def allCaps (s : String) : Bool := s.data.all (fun c => !c.isLower)

/-- Modelled from the spec: heading levels H1/H2/H3 (§3). -/
inductive HLevel where
  | H1
  | H2
  | H3
deriving DecidableEq

/-- Modelled from the spec: a TextBlock — `{page, text, font_size, bold,
y_position, x_position}` (§3), produced once per document by the Layout
Extractor in reading order. -/
structure TextBlock where
  page : Nat
  text : String
  font_size : ℚ
  bold : Bool
  y_position : ℚ
  x_position : ℚ
deriving DecidableEq

/-- Modelled from the spec: a Heading — `{level, text, page}` (§3). -/
structure Heading where
  level : HLevel
  text : String
  page : Nat
deriving DecidableEq

/-- Modelled from the spec: an Outline — `{title, headings}` (§3); the title
is a string, possibly empty, never absent. -/
structure Outline where
  title : String
  headings : List Heading
deriving DecidableEq

/-- Modelled from the spec: a FontProfile — `{body_size, heading_sizes}` (§3),
derived per extraction run. -/
structure FontProfile where
  body_size : ℚ
  heading_sizes : List ℚ
deriving DecidableEq

/-- Modelled from the spec: total character count of the blocks with a given
font size (§4.2: character count, not block count). -/
def charCount (blocks : List TextBlock) (size : ℚ) : Nat :=
  ((blocks.filter (fun b => b.font_size = size)).map (fun b => b.text.length)).sum

/-- The distinct font sizes occurring in the document. -/
def distinctSizes (blocks : List TextBlock) : List ℚ :=
  (blocks.map (fun b => b.font_size)).dedup

/-- Modelled from the spec: the body size is the font size with the highest
total character count (§4.2); ties keep the earlier size, `0` for an empty
document. -/
def bodySize (blocks : List TextBlock) : ℚ :=
  (distinctSizes blocks).foldl
    (fun best s => if charCount blocks best < charCount blocks s then s else best) 0

/-- Modelled from the spec: the font profile — body size plus the distinct
sizes strictly greater than it, sorted descending, at most three of them
(§4.2); with fewer than three, the available ones are mapped from H1 down. -/
def fontProfileOf (blocks : List TextBlock) : FontProfile :=
  let b := bodySize blocks
  ⟨b, (List.insertionSort (fun x y : ℚ => y ≤ x)
      ((distinctSizes blocks).filter (fun s => b < s))).take 3⟩

/-- One numbering group: one or more digits followed by a literal dot;
returns the remaining characters. -/
def parseGroup (cs : List Char) : Option (List Char) :=
  let ds := cs.takeWhile (fun c => c.isDigit)
  if ds.isEmpty then none
  else
    match cs.drop ds.length with
    | '.' :: rest => some rest
    | _ => none

/-- Modelled from the spec: the numbered-heading patterns `^\d+\.\s`,
`^\d+\.\d+\.\s`, `^\d+\.\d+\.\d+\.\s` (§4.3); the result is the numbering
depth (1–3 dot groups), `none` when the text is not a numbered heading. -/
def numberingDepth (s : String) : Option Nat :=
  match parseGroup s.data with
  | none => none
  | some r1 =>
    match parseGroup r1 with
    | none => if r1.head? = some ' ' then some 1 else none
    | some r2 =>
      match parseGroup r2 with
      | none => if r2.head? = some ' ' then some 2 else none
      | some r3 => if r3.head? = some ' ' then some 3 else none

/-- Numbering depth 1/2/3 maps to H1/H2/H3 (§4.3 rule 2). -/
def levelOfDepth : Nat → HLevel
  | 1 => HLevel.H1
  | 2 => HLevel.H2
  | _ => HLevel.H3

/-- Size-tier rank 0/1/2 maps to H1/H2/H3 (§4.3 rule 1, largest → H1). -/
def levelOfIdx : Nat → HLevel
  | 0 => HLevel.H1
  | 1 => HLevel.H2
  | _ => HLevel.H3

/-- Modelled from the spec: per-block classification policy in priority order
(§4.3): a block whose font size matches one of the (at most three) heading
sizes is a heading candidate with the tier's level, and an explicit numbering
pattern overrides the tier level when they disagree; in a flat document (no
size above body size) a short bold or all-caps line is an H1 candidate (style
fallback, thresholds tunable per §9), again with the numbering override for
the level.  Blocks with no visible text are never candidates. -/
def classifyBlock (p : FontProfile) (b : TextBlock) : Option HLevel :=
  if strTrim b.text = "" then none
  else
    match p.heading_sizes.findIdx? (fun s => s = b.font_size) with
    | some i =>
      match numberingDepth b.text with
      | some d => some (levelOfDepth d)
      | none => some (levelOfIdx i)
    | none =>
      if p.heading_sizes.isEmpty ∧ (b.bold ∨ allCaps b.text = true) ∧
          (tokenize b.text).length ≤ 12 then
        match numberingDepth b.text with
        | some d => some (levelOfDepth d)
        | none => some HLevel.H1
      else none

/-- Modelled from the spec: merge-adjacency distance (§4.3/§9), a tunable
constant for the maximal vertical gap between the lines of one wrapped
heading. -/
def gapThreshold : ℚ := 6

/-- A heading candidate: an accepted block's level and trimmed text together
with the layout attributes the merge step compares. -/
structure HCand where
  level : HLevel
  text : String
  page : Nat
  font_size : ℚ
  bold : Bool
  y : ℚ
deriving DecidableEq

/-- The candidate built from an accepted block; `y` is the block's vertical
position (for a merged run, the run's first line). -/
def candOf (p : FontProfile) (b : TextBlock) : HCand :=
  ⟨(classifyBlock p b).getD HLevel.H1, strTrim b.text, b.page, b.font_size, b.bold,
    b.y_position⟩

/-- The ordered heading candidates of a document. -/
def candidatesOf (p : FontProfile) (blocks : List TextBlock) : List HCand :=
  (blocks.filter (fun b => (classifyBlock p b).isSome)).map (candOf p)

/-- Modelled from the spec: two candidates merge when they have the same
inferred level, font size and boldness, sit on the same page, and their
vertical gap is below the threshold (§4.3). -/
def mergeable (c d : HCand) : Prop :=
  c.level = d.level ∧ c.font_size = d.font_size ∧ c.bold = d.bold ∧ c.page = d.page ∧
    d.y - c.y ≤ gapThreshold

instance mergeable.dec : ∀ c d, Decidable (mergeable c d) := fun c d => by
  unfold mergeable; infer_instance

/-- Merging two wrapped heading lines: the earlier candidate keeps its page
and position, the texts are joined. -/
def mergeTwo (c d : HCand) : HCand := { c with text := c.text ++ " " ++ d.text }

/-- Modelled from the spec: the fold merging runs of mergeable adjacent
candidates into single headings (§4.3, §9: an explicit fold over the ordered
sequence, not in-place mutation). -/
def mergeCands : List HCand → List HCand
  | [] => []
  | c :: rest =>
    match mergeCands rest with
    | [] => [c]
    | d :: ds => if mergeable c d then mergeTwo c d :: ds else c :: d :: ds

/-- The heading read off a candidate. -/
def headingOf (c : HCand) : Heading := ⟨c.level, c.text, c.page⟩

/-- Modelled from the spec: duplicate headings (same text and page) are
merged (§3), keeping the first occurrence; `seen` accumulates the (text,
page) keys already emitted. -/
def dedupHeads (seen : List (String × Nat)) : List Heading → List Heading
  | [] => []
  | h :: rest =>
    if (h.text, h.page) ∈ seen then dedupHeads seen rest
    else h :: dedupHeads ((h.text, h.page) :: seen) rest

/-- The first non-empty line of the document, empty when there is none
(§4.3: the title default). -/
def firstNonEmptyText (blocks : List TextBlock) : String :=
  ((blocks.find? (fun b => strTrim b.text ≠ "")).map (fun b => strTrim b.text)).getD ""

/-- The page-1 blocks carrying visible text. -/
def pageOneBlocks (blocks : List TextBlock) : List TextBlock :=
  blocks.filter (fun b => b.page = 1 ∧ strTrim b.text ≠ "")

/-- Modelled from the spec: title extraction (§4.3) — among page-1 blocks,
the run sharing the single largest font size on that page and not matched by
a numbering pattern; when no page-1 block exceeds body size, the first
non-empty line of the document; empty only when nothing qualifies. -/
def titleOf (p : FontProfile) (blocks : List TextBlock) : String :=
  let p1 := pageOneBlocks blocks
  if p1.all (fun b => b.font_size ≤ p.body_size) then firstNonEmptyText blocks
  else
    let m := p1.foldl (fun acc b => max acc b.font_size) 0
    String.intercalate " "
      ((p1.filter (fun b => b.font_size = m ∧ numberingDepth b.text = none)).map
        (fun b => strTrim b.text))

/-- Modelled from the spec: `extract_structure(document_bytes) -> Outline`
(§6).  The byte-level parsing of the Layout Extractor (§4.1) is not modelled;
a document stands for its ordered `TextBlock` sequence.  The pipeline is Font
Profile Builder → Heading Classifier (classification, merging of wrapped
lines, duplicate merging, title extraction, exclusion of the title from the
outline), a pure function that never fails (§4.3). -/
def extract_structure (blocks : List TextBlock) : Outline :=
  let p := fontProfileOf blocks
  let t := titleOf p blocks
  let hs := dedupHeads [] ((mergeCands (candidatesOf p blocks)).map headingOf)
  ⟨t, hs.filter (fun h => ¬(t ≠ "" ∧ h.text = t))⟩

/-- The spec's §8 example document, with the numbered heading line at font
size 18 and body text at font size 12 (so the computed body size is 12). -/
def exHeadingBlock : TextBlock := ⟨1, "1. Introduction", 18, false, 0, 0⟩

/-- The body text accompanying `exHeadingBlock`; its character count makes
size 12 the body size. -/
def exBodyBlock : TextBlock :=
  ⟨1, "This opening paragraph is the body of the page and has plenty of characters.",
    12, false, 20, 0⟩

/-- The §8 example document: one numbered heading line over body text. -/
def exDoc : List TextBlock := [exHeadingBlock, exBodyBlock]

/-- The document whose ONLY line is the numbered heading line: its computed
body size is then 18, not 12. -/
def exOnlyLineDoc : List TextBlock := [exHeadingBlock]

/-! ## Theorems for the frontend claims -/

theorem toggleDocSelection_nodup {prev : List String} (h : prev.Nodup) (d : String) :
    (toggleDocSelection d prev).Nodup := by
  unfold toggleDocSelection
  split
  · exact h.filter _
  · rename_i hd
    simpa [List.nodup_append] using ⟨h, hd⟩

/-- C9: the claim states that the upload UI validates the PDF mimetype and the
50-page ceiling before sending, so that no non-PDF or over-50-page file is
ever submitted to the upload endpoint.  This is false of `handleFileUpload`,
which submits whatever file is selected without inspecting it: a 120-page
plain-text file goes through unchanged. -/
theorem upload_claim_false :
    ¬ (∀ f g : UploadFile, handleFileUpload (some f) = some g →
        g.mimetype = "application/pdf" ∧ g.pages ≤ 50) := by
  intro h
  have := h ⟨"notes.txt", "text/plain", 120⟩ ⟨"notes.txt", "text/plain", 120⟩ rfl
  simp at this

/-- C9 (amended): `handleFileUpload` performs no client-side validation at
all — it sends a request exactly when a file is selected and sends the
selected file unchanged; the PDF type and the 50-page ceiling appear only in
the advisory `accept` attribute and the hint text, and actual validation is
owned by the backend endpoint (per `test_result.md`, the server rejects
non-PDF uploads with a 400 status). -/
theorem upload_no_validation :
    (∀ sf : Option UploadFile, handleFileUpload sf = sf) ∧
      uploadPageHint = "Maximum 50 pages supported" ∧ uploadAccept = ".pdf" := by
  refine ⟨fun sf => ?_, rfl, rfl⟩
  cases sf <;> rfl

/-- C10: after any sequence of `toggleDocSelection` clicks starting from the
initial (or reset) empty selection, the selected-document list contains no
duplicate id; and every analyze-persona request actually sent carries a
non-empty persona, a non-empty job_to_be_done, and a non-empty document_ids
list (`handlePersonaAnalysis` refuses to send otherwise). -/
theorem frontend_persona_invariants :
    (∀ clicks : List String, (runToggles clicks).Nodup) ∧
      (∀ (p j : String) (sel : List String) (req : PersonaQuery),
        handlePersonaAnalysis p j sel = some req →
          req.persona ≠ "" ∧ req.job_to_be_done ≠ "" ∧ req.document_ids ≠ []) := by
  constructor
  · intro clicks
    unfold runToggles
    have key : ∀ (cs : List String) (acc : List String), acc.Nodup →
        (cs.foldl (fun acc d => toggleDocSelection d acc) acc).Nodup := by
      intro cs
      induction cs with
      | nil => intro acc h; simpa using h
      | cons c cs ih =>
        intro acc h
        exact ih _ (toggleDocSelection_nodup h c)
    exact key clicks [] List.nodup_nil
  · intro p j sel req h
    unfold handlePersonaAnalysis at h
    split at h
    · exact absurd h (by simp)
    · rename_i hcond
      push_neg at hcond
      obtain ⟨hp, hj, hs⟩ := hcond
      cases h
      exact ⟨hp, hj, by simpa [← List.length_pos_iff_ne_nil] using Nat.pos_of_ne_zero hs⟩

/-- Witness for C10 at a concrete interaction: the history
`["d1", "d2", "d1", "d3"]` leaves the duplicate-free selection `["d2", "d3"]`,
and a concrete well-formed analysis request is sent with all three fields
non-empty. -/
theorem frontend_persona_invariants_witness :
    (runToggles ["d1", "d2", "d1", "d3"]).Nodup ∧
      (runToggles ["d1", "d2", "d1", "d3"] = ["d2", "d3"]) ∧
      (handlePersonaAnalysis "Investment Analyst" "find revenue projections" ["d2", "d3"] =
        some ⟨"Investment Analyst", "find revenue projections", ["d2", "d3"]⟩) ∧
      ("Investment Analyst" ≠ "" ∧ "find revenue projections" ≠ "" ∧
        (["d2", "d3"] : List String) ≠ []) :=
  ⟨frontend_persona_invariants.1 _, by decide, by decide,
    frontend_persona_invariants.2 "Investment Analyst" "find revenue projections"
      ["d2", "d3"] ⟨"Investment Analyst", "find revenue projections", ["d2", "d3"]⟩
      (by decide)⟩

/-! ## Theorems for the Persona Relevance Engine claims -/

theorem length_sortedPool (q : PersonaQuery) (sbd : List (String × List Section)) :
    (sortedPool q sbd).length = (poolOf q sbd).length := by
  unfold sortedPool scoredPool
  rw [(List.perm_insertionSort rankRel _).length_eq]
  simp

theorem norm2Text_nonneg (pool : List Section) (a : String) : 0 ≤ norm2Text pool a := by
  unfold norm2Text
  exact Finset.sum_nonneg fun t _ => sq_nonneg _

theorem ssimText_nonneg (pool : List Section) (a b : String) : 0 ≤ ssimText pool a b := by
  unfold ssimText
  split
  · exact le_refl 0
  · exact div_nonneg (sq_nonneg _) (mul_nonneg (norm2Text_nonneg pool a) (norm2Text_nonneg pool b))

theorem ssimText_le_one (pool : List Section) (a b : String) : ssimText pool a b ≤ 1 := by
  unfold ssimText
  split
  · norm_num
  · rename_i hne
    have hpos : 0 < norm2Text pool a * norm2Text pool b :=
      lt_of_le_of_ne (mul_nonneg (norm2Text_nonneg pool a) (norm2Text_nonneg pool b))
        (Ne.symm hne)
    rw [div_le_one hpos]
    unfold dotText norm2Text
    exact Finset.sum_mul_sq_le_sq_mul_sq _ _ _

theorem idf_nonneg (pool : List Section) (t : String) : 0 ≤ idf pool t := by
  unfold idf
  dsimp only
  split
  · exact le_refl 0
  · exact div_nonneg (Nat.cast_nonneg _) (Nat.cast_nonneg _)

theorem wText_nonneg (pool : List Section) (text t : String) : 0 ≤ wText pool text t :=
  mul_nonneg (Nat.cast_nonneg _) (idf_nonneg pool t)

theorem dotText_nonneg (pool : List Section) (a b : String) : 0 ≤ dotText pool a b := by
  unfold dotText
  exact Finset.sum_nonneg fun t _ =>
    mul_nonneg (wText_nonneg pool a t) (wText_nonneg pool b t)

/-- The model's rational `similarity_score` is exactly the square of the
spec's cosine similarity: taking the square root recovers the cosine of the
two non-negatively weighted vectors, with the spec's zero-vector guard. -/
theorem similarity_score_is_squared_cosine (pool : List Section) (a b : String) :
    Real.sqrt ((ssimText pool a b : ℚ) : ℝ) =
      if norm2Text pool a = 0 ∨ norm2Text pool b = 0 then 0
      else ((dotText pool a b : ℚ) : ℝ) /
        (Real.sqrt ((norm2Text pool a : ℚ) : ℝ) *
          Real.sqrt ((norm2Text pool b : ℚ) : ℝ)) := by
  unfold ssimText
  by_cases h : norm2Text pool a * norm2Text pool b = 0
  · rw [if_pos h, if_pos (mul_eq_zero.mp h)]
    simp
  · rw [if_neg h, if_neg (fun hc => h (mul_eq_zero.mpr hc))]
    have hd : (0 : ℚ) ≤ dotText pool a b := dotText_nonneg pool a b
    push_cast
    rw [Real.sqrt_div (by positivity) _, Real.sqrt_sq (by exact_mod_cast hd),
      Real.sqrt_mul (by exact_mod_cast norm2Text_nonneg pool a)]

theorem mem_scoredPool (q : PersonaQuery) (sbd : List (String × List Section)) {e : Scored}
    (he : e ∈ scoredPool q sbd) :
    ∃ h : e.idx < (poolOf q sbd).length,
      e.sec = (poolOf q sbd)[e.idx] ∧ e.ssim = ssimOf q (poolOf q sbd) e.sec := by
  unfold scoredPool at he
  obtain ⟨p, hp, rfl⟩ := List.mem_map.mp he
  obtain ⟨i, hi, hgi⟩ := List.mem_iff_getElem.mp hp
  have hlen : i < (poolOf q sbd).length := by simpa using hi
  have : p = (i, (poolOf q sbd)[i]) := by
    rw [← hgi]
    simp [List.getElem_enum]
  subst this
  exact ⟨hlen, rfl, rfl⟩

theorem mem_sortedPool_ssim_bounds (q : PersonaQuery) (sbd : List (String × List Section))
    {e : Scored} (he : e ∈ sortedPool q sbd) : 0 ≤ e.ssim ∧ e.ssim ≤ 1 := by
  have he' : e ∈ scoredPool q sbd :=
    ((List.perm_insertionSort rankRel _).mem_iff).mp he
  obtain ⟨_, _, hs⟩ := mem_scoredPool q sbd he'
  rw [hs]
  exact ⟨ssimText_nonneg _ _ _, ssimText_le_one _ _ _⟩

/-- C1: for every valid `rank_sections` call with N input sections, the call
succeeds and the returned ranked list has exactly N entries (no section is
filtered out) whose `importance_rank` values are exactly 1, 2, ..., N in
output order — in particular they form the set {1..N} with no gaps or
repeats. -/
theorem rank_sections_totality (q : PersonaQuery) (sbd : List (String × List Section))
    (h : validQuery q sbd) :
    rank_sections q sbd = Except.ok (rankedOf q sbd, refinedOf q sbd) ∧
      (rankedOf q sbd).length = (poolOf q sbd).length ∧
      (rankedOf q sbd).map (fun r => r.importance_rank) =
        List.range' 1 (poolOf q sbd).length := by
  refine ⟨by simp [rank_sections, h], ?_, ?_⟩
  · unfold rankedOf
    simp [length_sortedPool]
  · unfold rankedOf
    rw [List.map_map]
    have hcomp : ((fun r : RankedSection => r.importance_rank) ∘
        fun p : Nat × Scored =>
          (⟨p.2.sec.document_id, p.2.sec.title, p.2.sec.page, p.1, p.2.ssim⟩ :
            RankedSection)) = Prod.fst := rfl
    rw [hcomp, List.enumFrom_map_fst, length_sortedPool]

/-- Witness for C1 on the concrete two-section store: the query is valid and
the ranked list carries importance ranks `[1, 2]`. -/
theorem rank_sections_totality_witness :
    validQuery exQuery exStore ∧
      (rank_sections exQuery exStore =
          Except.ok (rankedOf exQuery exStore, refinedOf exQuery exStore) ∧
        (rankedOf exQuery exStore).length = (poolOf exQuery exStore).length ∧
        (rankedOf exQuery exStore).map (fun r => r.importance_rank) =
          List.range' 1 (poolOf exQuery exStore).length) :=
  ⟨by decide, rank_sections_totality exQuery exStore (by decide)⟩

/-- C3: every `similarity_score` in a successful `rank_sections` result lies
in the closed interval [0, 1].  The model's score is the squared cosine of
two non-negatively weighted vectors; non-negativity is immediate and the
upper bound is the Cauchy–Schwarz inequality. -/
theorem similarity_score_mem_unit_interval (q : PersonaQuery)
    (sbd : List (String × List Section)) (ranked : List RankedSection)
    (refined : List RefinedExcerpt)
    (hok : rank_sections q sbd = Except.ok (ranked, refined)) :
    ∀ r ∈ ranked, 0 ≤ r.similarity_score ∧ r.similarity_score ≤ 1 := by
  intro r hr
  have hranked : ranked = rankedOf q sbd := by
    unfold rank_sections at hok
    split at hok
    · cases hok; rfl
    · cases hok
  subst hranked
  unfold rankedOf at hr
  obtain ⟨p, hp, rfl⟩ := List.mem_map.mp hr
  have hmem : p.2 ∈ sortedPool q sbd := by
    have h1 : p.2 ∈ ((sortedPool q sbd).enumFrom 1).map Prod.snd :=
      List.mem_map_of_mem Prod.snd hp
    rwa [List.enumFrom_map_snd] at h1
  simpa using mem_sortedPool_ssim_bounds q sbd hmem

/-- Witness for C3 on the concrete two-section store: the call succeeds and
every returned score is in [0, 1]. -/
theorem similarity_score_mem_unit_interval_witness :
    (rank_sections exQuery exStore =
        Except.ok (rankedOf exQuery exStore, refinedOf exQuery exStore)) ∧
      (∀ r ∈ rankedOf exQuery exStore, 0 ≤ r.similarity_score ∧ r.similarity_score ≤ 1) :=
  ⟨by rfl,
    similarity_score_mem_unit_interval exQuery exStore (rankedOf exQuery exStore)
      (refinedOf exQuery exStore) (by rfl)⟩

/-- C4: `rank_sections` fails with `InvalidQueryError` exactly when the
query's `document_ids` is empty or references a document id absent from
`sections_by_document`; the error constructor carries no payload, so nothing
is computed in that case. -/
theorem rank_sections_invalid_query_iff (q : PersonaQuery)
    (sbd : List (String × List Section)) :
    rank_sections q sbd = Except.error RankError.InvalidQueryError ↔
      (q.document_ids = [] ∨ ∃ d ∈ q.document_ids, lookupSections sbd d = none) := by
  have hnone : ∀ o : Option (List Section), ¬ o.isSome = true ↔ o = none := by
    intro o; cases o <;> simp
  have hiff : (¬ validQuery q sbd) ↔
      (q.document_ids = [] ∨ ∃ d ∈ q.document_ids, lookupSections sbd d = none) := by
    unfold validQuery
    constructor
    · intro h
      by_cases he : q.document_ids = []
      · exact Or.inl he
      · push_neg at h
        obtain ⟨d, hd, hne⟩ := h he
        exact Or.inr ⟨d, hd, (hnone _).mp hne⟩
    · rintro (he | ⟨d, hd, hni⟩) ⟨h1, h2⟩
      · exact h1 he
      · exact absurd ((h2 d hd)) (by simp [hni])
  rw [← hiff]
  unfold rank_sections
  split
  · rename_i h
    simp only [iff_false_intro (not_not_intro h), iff_false]
    intro hbad
    cases hbad
  · rename_i h
    simp [h]

theorem tf_eq_zero_of_not_mem {t text : String} (h : t ∉ tokenize text) : tf t text = 0 := by
  unfold tf
  exact List.count_eq_zero_of_not_mem h

theorem dotText_eq_zero_of_disjoint (pool : List Section) (a b : String)
    (h : ∀ t ∈ tokenize a, t ∉ tokenize b) : dotText pool a b = 0 := by
  unfold dotText
  apply Finset.sum_eq_zero
  intro t _
  by_cases hta : t ∈ tokenize a
  · have hb : tf t b = 0 := tf_eq_zero_of_not_mem (h t hta)
    simp [wText, hb]
  · have ha : tf t a = 0 := tf_eq_zero_of_not_mem hta
    simp [wText, ha]

theorem ssimText_eq_zero_of_disjoint (pool : List Section) (a b : String)
    (h : ∀ t ∈ tokenize a, t ∉ tokenize b) : ssimText pool a b = 0 := by
  unfold ssimText
  split
  · rfl
  · rw [dotText_eq_zero_of_disjoint pool a b h]
    simp

theorem nodup_idx_sortedPool (q : PersonaQuery) (sbd : List (String × List Section)) :
    (sortedPool q sbd).Pairwise (fun x y => x.idx ≠ y.idx) := by
  have h1 : ((scoredPool q sbd).map Scored.idx).Nodup := by
    unfold scoredPool
    rw [List.map_map]
    have hcomp : (Scored.idx ∘ fun p : Nat × Section =>
        (⟨p.2, ssimOf q (poolOf q sbd) p.2, p.1⟩ : Scored)) = Prod.fst := rfl
    rw [hcomp]
    exact List.nodup_enum_map_fst _
  have h2 : ((sortedPool q sbd).map Scored.idx).Nodup :=
    (((List.perm_insertionSort rankRel (scoredPool q sbd)).map Scored.idx).nodup_iff).mpr h1
  exact List.pairwise_map.mp h2

theorem sortedPool_ties_idx (q : PersonaQuery) (sbd : List (String × List Section)) :
    (sortedPool q sbd).Pairwise (fun x y => x.ssim = y.ssim → x.idx < y.idx) := by
  have hs : (sortedPool q sbd).Pairwise rankRel :=
    List.sorted_insertionSort rankRel (scoredPool q sbd)
  have hn := nodup_idx_sortedPool q sbd
  refine (hs.and hn).imp ?_
  rintro a b ⟨hr, hne⟩ heq
  rcases hr with h | ⟨-, hle⟩
  · rw [heq] at h
    exact absurd h (lt_irrefl _)
  · exact lt_of_le_of_ne hle hne

theorem lookupSections_props {sbd : List (String × List Section)} {d : String}
    {secs : List Section} (h : lookupSections sbd d = some secs) :
    ∃ p ∈ sbd, p.1 = d ∧ p.2 = secs := by
  unfold lookupSections at h
  rw [Option.map_eq_some'] at h
  obtain ⟨p, hfind, hsnd⟩ := h
  exact ⟨p, List.mem_of_find?_eq_some hfind, by simpa using List.find?_some hfind, hsnd⟩

theorem chunk_document_id (sbd : List (String × List Section))
    (hcons : ∀ p ∈ sbd, ∀ s ∈ p.2, s.document_id = p.1) (d : String) :
    ∀ s ∈ (lookupSections sbd d).getD [], s.document_id = d := by
  intro s hs
  cases hlk : lookupSections sbd d with
  | none => rw [hlk] at hs; simp at hs
  | some secs =>
    rw [hlk] at hs
    simp only [Option.getD_some] at hs
    obtain ⟨p, hp, hpd, hpsecs⟩ := lookupSections_props hlk
    have := hcons p hp s (by rw [hpsecs]; exact hs)
    rw [this, hpd]

theorem chunk_pages (sbd : List (String × List Section))
    (hpage : ∀ p ∈ sbd, p.2.Pairwise (fun a b => a.page ≤ b.page)) (d : String) :
    ((lookupSections sbd d).getD []).Pairwise (fun a b => a.page ≤ b.page) := by
  cases hlk : lookupSections sbd d with
  | none => simp
  | some secs =>
    simp only [Option.getD_some]
    obtain ⟨p, hp, -, hpsecs⟩ := lookupSections_props hlk
    rw [← hpsecs]
    exact hpage p hp

theorem poolOf_pairwise_inputLex (q : PersonaQuery) (sbd : List (String × List Section))
    (hnd : q.document_ids.Nodup)
    (hcons : ∀ p ∈ sbd, ∀ s ∈ p.2, s.document_id = p.1)
    (hpage : ∀ p ∈ sbd, p.2.Pairwise (fun a b => a.page ≤ b.page)) :
    (poolOf q sbd).Pairwise (inputLex q) := by
  unfold poolOf
  rw [List.pairwise_flatten]
  constructor
  · intro l hl
    obtain ⟨d, hd, rfl⟩ := List.mem_map.mp hl
    refine (chunk_pages sbd hpage d).imp_of_mem ?_
    intro a b ha hb hab
    right
    refine ⟨?_, hab⟩
    unfold docPos
    rw [chunk_document_id sbd hcons d a ha, chunk_document_id sbd hcons d b hb]
  · rw [List.pairwise_map]
    have hpos : q.document_ids.Pairwise
        (fun d₁ d₂ => q.document_ids.indexOf d₁ < q.document_ids.indexOf d₂) := by
      rw [List.pairwise_iff_getElem]
      intro i j hi hj hij
      rw [List.indexOf_getElem hnd i hi, List.indexOf_getElem hnd j hj]
      exact hij
    refine hpos.imp_of_mem ?_
    intro d₁ d₂ h1 h2 hlt x hx y hy
    left
    unfold docPos
    rw [chunk_document_id sbd hcons d₁ x hx, chunk_document_id sbd hcons d₂ y hy]
    exact hlt

/-- C2: (1) a section whose `body_text` shares no vocabulary with the
persona-plus-job query receives similarity score 0; (2) among equal-similarity
sections (in particular all zero-score sections), the sorted output preserves
the input pool order; (3) under the data-model assumptions the spec places on
the inputs (`document_ids` is a set, sections are pre-tagged with their
originating document id, each document's sections arrive in reading order),
equal-similarity sections appear in `document_ids` order first, then page
ascending — so the ranking is a deterministic total order. -/
theorem rank_sections_zero_overlap_and_ties :
    (∀ (q : PersonaQuery) (pool : List Section) (s : Section),
        (∀ t ∈ tokenize s.body_text, t ∉ tokenize (queryText q)) →
          ssimOf q pool s = 0) ∧
    (∀ (q : PersonaQuery) (sbd : List (String × List Section)),
        (sortedPool q sbd).Pairwise (fun x y => x.ssim = y.ssim → x.idx < y.idx)) ∧
    (∀ (q : PersonaQuery) (sbd : List (String × List Section)),
        q.document_ids.Nodup →
        (∀ p ∈ sbd, ∀ s ∈ p.2, s.document_id = p.1) →
        (∀ p ∈ sbd, p.2.Pairwise (fun a b => a.page ≤ b.page)) →
        (sortedPool q sbd).Pairwise
          (fun x y => x.ssim = y.ssim → inputLex q x.sec y.sec)) := by
  refine ⟨?_, sortedPool_ties_idx, ?_⟩
  · intro q pool s h
    exact ssimText_eq_zero_of_disjoint pool s.body_text (queryText q) h
  · intro q sbd hnd hcons hpage
    have hpw := poolOf_pairwise_inputLex q sbd hnd hcons hpage
    have hget := List.pairwise_iff_getElem.mp hpw
    refine (sortedPool_ties_idx q sbd).imp_of_mem ?_
    intro x y hx hy himp heq
    have hx' : x ∈ scoredPool q sbd :=
      ((List.perm_insertionSort rankRel _).mem_iff).mp hx
    have hy' : y ∈ scoredPool q sbd :=
      ((List.perm_insertionSort rankRel _).mem_iff).mp hy
    obtain ⟨hxl, hxs, -⟩ := mem_scoredPool q sbd hx'
    obtain ⟨hyl, hys, -⟩ := mem_scoredPool q sbd hy'
    rw [hxs, hys]
    exact hget x.idx y.idx hxl hyl (himp heq)

/-- Witness for C2 on the concrete store: the history section shares no
vocabulary with the query and indeed scores 0, and the concrete inputs
satisfy the data-model hypotheses, so ties are ordered by (document, page). -/
theorem rank_sections_zero_overlap_and_ties_witness :
    ((∀ t ∈ tokenize exSecHistory.body_text, t ∉ tokenize (queryText exQuery)) ∧
      ssimOf exQuery (poolOf exQuery exStore) exSecHistory = 0) ∧
    (exQuery.document_ids.Nodup ∧
      (∀ p ∈ exStore, ∀ s ∈ p.2, s.document_id = p.1) ∧
      (∀ p ∈ exStore, p.2.Pairwise (fun a b => a.page ≤ b.page)) ∧
      (sortedPool exQuery exStore).Pairwise
        (fun x y => x.ssim = y.ssim → inputLex exQuery x.sec y.sec)) :=
  ⟨⟨by decide,
      rank_sections_zero_overlap_and_ties.1 exQuery (poolOf exQuery exStore)
        exSecHistory (by decide)⟩,
    ⟨by decide, by decide, by decide,
      rank_sections_zero_overlap_and_ties.2.2 exQuery exStore (by decide) (by decide)
        (by decide)⟩⟩

/-! ## Theorems for the Structure Extraction Engine claims -/

theorem extract_structure_headings (blocks : List TextBlock) :
    (extract_structure blocks).headings =
      (dedupHeads []
          ((mergeCands (candidatesOf (fontProfileOf blocks) blocks)).map headingOf)).filter
        (fun h => ¬(titleOf (fontProfileOf blocks) blocks ≠ "" ∧
          h.text = titleOf (fontProfileOf blocks) blocks)) := rfl

theorem extract_structure_title (blocks : List TextBlock) :
    (extract_structure blocks).title = titleOf (fontProfileOf blocks) blocks := rfl

/-- C5: the extraction never fails and the title is a total field — for every
block sequence the result is a plain `Outline` whose `title` component is a
`String` (enforced by the `Outline` type itself: the field is not optional);
in particular a document with no visible text at all yields
`Outline {title := "", headings := []}` as a successful result. -/
theorem extract_structure_no_text (blocks : List TextBlock)
    (h : ∀ b ∈ blocks, strTrim b.text = "") :
    extract_structure blocks = ⟨"", []⟩ := by
  have hp1 : pageOneBlocks blocks = [] := by
    unfold pageOneBlocks
    rw [List.filter_eq_nil_iff]
    intro b hb
    simp [h b hb]
  have hfirst : firstNonEmptyText blocks = "" := by
    unfold firstNonEmptyText
    rw [List.find?_eq_none.mpr]
    · rfl
    · intro b hb
      simp [h b hb]
  have htitle : titleOf (fontProfileOf blocks) blocks = "" := by
    unfold titleOf
    rw [hp1]
    simpa using hfirst
  have hcands : candidatesOf (fontProfileOf blocks) blocks = [] := by
    unfold candidatesOf
    rw [List.filter_eq_nil_iff.mpr, List.map_nil]
    intro b hb
    simp [classifyBlock, h b hb]
  rw [show extract_structure blocks =
      (⟨titleOf (fontProfileOf blocks) blocks,
        (dedupHeads []
            ((mergeCands (candidatesOf (fontProfileOf blocks) blocks)).map headingOf)).filter
          (fun hh => ¬(titleOf (fontProfileOf blocks) blocks ≠ "" ∧
            hh.text = titleOf (fontProfileOf blocks) blocks))⟩ : Outline) from rfl,
    hcands, htitle]
  rfl

/-- Witness for C5: a document holding one whitespace-only block extracts to
the empty outline. -/
theorem extract_structure_no_text_witness :
    (∀ b ∈ [(⟨1, "  ", 10, false, 0, 0⟩ : TextBlock)], strTrim b.text = "") ∧
      extract_structure [(⟨1, "  ", 10, false, 0, 0⟩ : TextBlock)] = ⟨"", []⟩ :=
  ⟨by decide, extract_structure_no_text _ (by decide)⟩

/-- C6: `extract_structure` is deterministic — it is a pure function of the
document's block sequence (the model keeps no state), so two calls on
identical input yield identical Outlines. -/
theorem extract_structure_deterministic (b₁ b₂ : List TextBlock) (h : b₁ = b₂) :
    extract_structure b₁ = extract_structure b₂ :=
  congrArg extract_structure h

/-- Witness for C6 at the concrete example document. -/
theorem extract_structure_deterministic_witness :
    exDoc = exDoc ∧ extract_structure exDoc = extract_structure exDoc :=
  ⟨rfl, extract_structure_deterministic exDoc exDoc rfl⟩

theorem candidatesOf_pages (p : FontProfile) (blocks : List TextBlock)
    (h : blocks.Pairwise (fun a b => a.page ≤ b.page)) :
    (candidatesOf p blocks).Pairwise (fun a b => a.page ≤ b.page) := by
  unfold candidatesOf
  rw [List.pairwise_map]
  exact (h.sublist (List.filter_sublist _))

theorem mergeCands_cons (c : HCand) (rest : List HCand) :
    mergeCands (c :: rest) =
      match mergeCands rest with
      | [] => [c]
      | d :: ds => if mergeable c d then mergeTwo c d :: ds else c :: d :: ds := rfl

theorem mergeCands_pages_sublist (l : List HCand) :
    List.Sublist ((mergeCands l).map (fun c => c.page)) (l.map (fun c => c.page)) := by
  induction l with
  | nil => simp [mergeCands]
  | cons c rest ih =>
    rw [mergeCands_cons]
    cases hm : mergeCands rest with
    | nil =>
      simp only [List.map_cons, List.map_nil]
      exact List.Sublist.cons₂ _ (List.nil_sublist _)
    | cons d ds =>
      rw [hm] at ih
      dsimp only
      by_cases hmg : mergeable c d
      · rw [if_pos hmg]
        simp only [List.map_cons] at ih ⊢
        have hds : List.Sublist (ds.map (fun c => c.page)) (rest.map (fun c => c.page)) :=
          List.Sublist.trans (List.sublist_cons_self d.page (ds.map (fun c => c.page))) ih
        exact List.Sublist.cons₂ c.page hds
      · rw [if_neg hmg]
        simp only [List.map_cons] at ih ⊢
        exact List.Sublist.cons₂ c.page ih

theorem mergeCands_pages (l : List HCand)
    (h : l.Pairwise (fun a b => a.page ≤ b.page)) :
    (mergeCands l).Pairwise (fun a b => a.page ≤ b.page) := by
  have h1 : (l.map (fun c => c.page)).Pairwise (fun a b => a ≤ b) :=
    List.pairwise_map.mpr h
  have h2 := h1.sublist (mergeCands_pages_sublist l)
  exact List.pairwise_map.mp h2

theorem dedupHeads_cons (seen : List (String × Nat)) (h : Heading) (rest : List Heading) :
    dedupHeads seen (h :: rest) =
      if (h.text, h.page) ∈ seen then dedupHeads seen rest
      else h :: dedupHeads ((h.text, h.page) :: seen) rest := rfl

theorem dedupHeads_sublist (l : List Heading) :
    ∀ seen, List.Sublist (dedupHeads seen l) l := by
  induction l with
  | nil => intro seen; simp [dedupHeads]
  | cons h rest ih =>
    intro seen
    rw [dedupHeads_cons]
    split
    · exact (ih seen).trans (List.sublist_cons_self _ _)
    · exact List.Sublist.cons₂ _ (ih _)

theorem dedupHeads_key_not_seen (l : List Heading) :
    ∀ seen, ∀ x ∈ dedupHeads seen l, (x.text, x.page) ∉ seen := by
  induction l with
  | nil => intro seen x hx; simp [dedupHeads] at hx
  | cons h rest ih =>
    intro seen x hx
    rw [dedupHeads_cons] at hx
    split at hx
    · exact ih seen x hx
    · rename_i hnot
      rcases List.mem_cons.mp hx with rfl | hx'
      · exact hnot
      · intro hc
        exact ih _ x hx' (List.mem_cons_of_mem _ hc)

theorem dedupHeads_pairwise (l : List Heading) :
    ∀ seen, (dedupHeads seen l).Pairwise
      (fun a b => ¬(a.text = b.text ∧ a.page = b.page)) := by
  induction l with
  | nil => intro seen; simp [dedupHeads]
  | cons h rest ih =>
    intro seen
    rw [dedupHeads_cons]
    split
    · exact ih seen
    · refine List.Pairwise.cons ?_ (ih _)
      intro b hb hc
      have hkey : ((b.text, b.page) : String × Nat) = (h.text, h.page) := by
        rw [← hc.1, ← hc.2]
      exact dedupHeads_key_not_seen rest _ b hb (hkey ▸ List.mem_cons_self _ _)

/-- C7: for a document whose blocks arrive in reading order (pages never
decrease, spec §3), the extracted heading sequence never regresses in page
number, and no two headings share both text and page (duplicates are
merged). -/
theorem outline_pages_monotone_and_dedup (blocks : List TextBlock)
    (h : blocks.Pairwise (fun a b => a.page ≤ b.page)) :
    (extract_structure blocks).headings.Pairwise (fun a b => a.page ≤ b.page) ∧
      (extract_structure blocks).headings.Pairwise
        (fun a b => ¬(a.text = b.text ∧ a.page = b.page)) := by
  rw [extract_structure_headings]
  constructor
  · refine List.Pairwise.sublist (List.filter_sublist _) ?_
    refine List.Pairwise.sublist (dedupHeads_sublist _ _) ?_
    rw [List.pairwise_map]
    exact mergeCands_pages _ (candidatesOf_pages _ _ h)
  · exact List.Pairwise.sublist (List.filter_sublist _) (dedupHeads_pairwise _ _)

/-- Witness for C7 on a concrete two-page document in reading order: the two
extracted headings are page-monotone and pairwise distinct on (text, page). -/
theorem outline_pages_monotone_and_dedup_witness :
    (([(⟨1, "1. Introduction", 18, false, 0, 0⟩ : TextBlock),
        ⟨1, "body text with plenty and plenty of characters on it", 12, false, 20, 0⟩,
        ⟨2, "2. Methods", 18, false, 0, 0⟩] : List TextBlock).Pairwise
      (fun a b => a.page ≤ b.page)) ∧
      ((extract_structure
          [⟨1, "1. Introduction", 18, false, 0, 0⟩,
            ⟨1, "body text with plenty and plenty of characters on it", 12, false, 20, 0⟩,
            ⟨2, "2. Methods", 18, false, 0, 0⟩]).headings.Pairwise
        (fun a b => a.page ≤ b.page) ∧
        (extract_structure
            [⟨1, "1. Introduction", 18, false, 0, 0⟩,
              ⟨1, "body text with plenty and plenty of characters on it", 12, false, 20, 0⟩,
              ⟨2, "2. Methods", 18, false, 0, 0⟩]).headings.Pairwise
          (fun a b => ¬(a.text = b.text ∧ a.page = b.page))) :=
  ⟨by decide, outline_pages_monotone_and_dedup _ (by decide)⟩

/-- C8 counterexample: for a single-page document whose ONLY line is
"1. Introduction" at font size 18, the computed body size is 18 (it is the
only size, hence the one with the highest character count — it cannot be 12),
the document is flat (no size exceeds body size), the line is neither bold
nor all-caps, so the style fallback rejects it: `extract_structure` yields NO
heading (the line becomes the title via the first-non-empty-line default),
not the claimed single H1 heading. -/
theorem only_line_example_counterexample :
    extract_structure exOnlyLineDoc = ⟨"1. Introduction", []⟩ ∧
      bodySize exOnlyLineDoc = 18 ∧
      (extract_structure exOnlyLineDoc).headings ≠
        [⟨HLevel.H1, "1. Introduction", 1⟩] := by
  decide

/-- C8 (amended): for the spec's §8 example document — the line
"1. Introduction" at font size 18 over body text at size 12, so that the
computed body size is 12 — `extract_structure` yields exactly one heading
`{level := H1, text := "1. Introduction", page := 1}`; and in general,
whenever a block matching a numbered heading pattern is classified as a
heading, the numbering depth (1, 2 or 3 dot groups) determines the level
H1/H2/H3, overriding the font-size tier when they disagree. -/
theorem numbering_overrides_size_tier :
    (extract_structure exDoc = ⟨"", [⟨HLevel.H1, "1. Introduction", 1⟩]⟩) ∧
      (∀ (p : FontProfile) (b : TextBlock) (l : HLevel) (d : Nat),
        classifyBlock p b = some l → numberingDepth b.text = some d →
          l = levelOfDepth d) := by
  refine ⟨by decide, ?_⟩
  intro p b l d hc hn
  unfold classifyBlock at hc
  split at hc
  · cases hc
  · split at hc
    · rw [hn] at hc
      cases hc
      rfl
    · split at hc
      · rw [hn] at hc
        cases hc
        rfl
      · cases hc

/-- Witness for C8: a concrete block classified through the size tier whose
depth-2 numbering overrides the tier level (size 18 is the largest size, tier
H1, but "2.1. Data" is classified H2). -/
theorem numbering_overrides_size_tier_witness :
    (classifyBlock ⟨12, [18]⟩ ⟨3, "2.1. Data", 18, false, 0, 0⟩ = some HLevel.H2 ∧
      numberingDepth "2.1. Data" = some 2) ∧
      HLevel.H2 = levelOfDepth 2 :=
  ⟨⟨by decide, by decide⟩,
    numbering_overrides_size_tier.2 ⟨12, [18]⟩ ⟨3, "2.1. Data", 18, false, 0, 0⟩
      HLevel.H2 2 (by decide) (by decide)⟩

end ConnectingDots
